import Mathlib

/-!
Verification of the document-agent persistence layer: the TinyDB-backed
session store (`services/session_service.py`), the knowledge store
(`services/knowledge_service.py`), the table-truncating clear endpoints
(`flask/app.py`) and the GitHub profile tool (`tools/github_tool.py`).

The embedding is shallow: a TinyDB table is a list of records in document-id
(insertion) order; `upsert(doc, cond)` updates every matching record in place
and inserts at the end when none matches; `update(fields, cond)` merges the
fields into every matching record; `get(cond)` returns the first match;
`search(cond)` returns all matches in order; `remove(cond)` deletes all
matches; `truncate()` empties the table.  Python dict payloads whose values
the code never inspects are carried as association lists from `String`.
-/

namespace DocumentAgent

/-- The shapes `event.content` can take, following the branch structure of
`event_to_dict`: a plain Python dict (mapping), an object with `model_dump`,
an object with a `text` attribute, or any other value (the code only ever
applies `str(...)` to it; an integer such as `42` stringifies to its decimal
form). -/
inductive PyContent where
  | mapping (entries : List (String × String))
  | modelObj (dump : List (String × String))
  | textObj (text : String)
  | intVal (n : Int)
deriving Repr, DecidableEq

/-- A persisted `content` field: the JSON stored under `"content"` is either a
dict or some primitive whose `str(...)` form is carried. -/
inductive StoredContent where
  | dict (entries : List (String × String))
  | prim (strRepr : String)
deriving Repr, DecidableEq

/-- An in-memory ADK `Event` as this code uses it: id, author, content,
timestamp (the timestamp is opaque pass-through data). -/
structure Event where
  id : String
  author : String
  content : PyContent
  timestamp : Int
deriving Repr, DecidableEq

/-- The dict `event_to_dict` writes into the `events` array of a session
record. -/
structure StoredEvent where
  id : String
  author : String
  content : StoredContent
  timestamp : Int
deriving Repr, DecidableEq

/-- `event_to_dict` (session_service.py): dict content is stored directly;
`model_dump` objects store their dump; objects with a `text` attribute store
`{"text": ...}`; anything else stores `{"text": str(...)}`. -/
def event_to_dict (event : Event) : StoredEvent :=
  let content_data : StoredContent :=
    match event.content with
    | .mapping entries => .dict entries
    | .modelObj dump => .dict dump
    | .textObj t => .dict [("text", t)]
    | .intVal n => .dict [("text", toString n)]
  { id := event.id, author := event.author, content := content_data,
    timestamp := event.timestamp }

/-- `dict_to_event` (session_service.py): a stored dict is used directly as
the content; any non-dict raw content is wrapped as `{"text": str(...)}`. -/
def dict_to_event (data : StoredEvent) : Event :=
  let content_val : PyContent :=
    match data.content with
    | .dict d => .mapping d
    | .prim s => .mapping [("text", s)]
  { id := data.id, author := data.author, content := content_val,
    timestamp := data.timestamp }

/-- Reading `content["text"]` off a rehydrated event's content. -/
def content_text (c : PyContent) : Option String :=
  match c with
  | .mapping d => (d.find? (fun kv => kv.1 == "text")).map (fun kv => kv.2)
  | .modelObj d => (d.find? (fun kv => kv.1 == "text")).map (fun kv => kv.2)
  | .textObj t => some t
  | .intVal _ => none

/-- The in-memory ADK `Session` object. -/
structure Session where
  id : String
  app_name : String
  user_id : String
  state : List (String × String)
  events : List Event
deriving Repr, DecidableEq

/-- One record of the TinyDB `sessions` table. -/
structure SessionRecord where
  id : String
  app_name : String
  user_id : String
  state : List (String × String)
  events : List StoredEvent
deriving Repr, DecidableEq

/-- The `sessions` table in document-id order. -/
abbrev SessionsTable := List SessionRecord

/-- TinyDB `table.upsert(rec, Query().id == rec.id)`: every record matching
the condition is updated with `rec`'s fields (here: all fields, so replaced);
when none matches, `rec` is appended. -/
def upsertById (table : SessionsTable) (rec : SessionRecord) : SessionsTable :=
  if table.any (fun r => r.id == rec.id) then
    table.map (fun r => if r.id == rec.id then rec else r)
  else
    table ++ [rec]

/-- `if not session_id: session_id = str(uuid.uuid4())` — Python treats both
an absent and an empty-string id as falsy; the uuid4 draw is the oracle
argument `generated_uuid`. -/
def resolve_sid (session_id : Option String) (generated_uuid : String) : String :=
  match session_id with
  | some s => if s = "" then generated_uuid else s
  | none => generated_uuid

/-- `TinyDBSessionService.create_session`: `if not session_id` (absent or
empty) a fresh uuid4 string — modelled as the oracle argument
`generated_uuid` — becomes the id; a record with the given-or-empty state and
an empty event list is upserted keyed by id alone; the in-memory `Session` is
returned. -/
def create_session (table : SessionsTable) (app_name user_id : String)
    (session_id : Option String) (state : Option (List (String × String)))
    (generated_uuid : String) : SessionsTable × Session :=
  let sid : String := resolve_sid session_id generated_uuid
  let new_session : Session :=
    { id := sid, app_name := app_name, user_id := user_id,
      state := state.getD [], events := [] }
  let table' := upsertById table
    { id := sid, app_name := app_name, user_id := user_id,
      state := new_session.state, events := [] }
  (table', new_session)

/-- `TinyDBSessionService.get_session`: searches by the exact
(app_name, user_id, id) triple; `None` when nothing matches, otherwise the
first match is rehydrated, each stored event through `dict_to_event`. -/
def get_session (table : SessionsTable) (app_name user_id session_id : String) :
    Option Session :=
  match table.filter (fun r =>
      r.app_name == app_name && r.user_id == user_id && r.id == session_id) with
  | [] => none
  | data :: _ =>
    some { id := data.id, app_name := data.app_name, user_id := data.user_id,
           state := data.state, events := data.events.map dict_to_event }

/-- `TinyDBSessionService.append_event`: appends to the in-memory event list
first; then looks the record up by id alone (`table.get`) and, only when one
exists, rewrites its `events` and `state` via `table.update` keyed by id
alone. Returns the updated table and session. -/
def append_event (table : SessionsTable) (session : Session) (event : Event) :
    SessionsTable × Session :=
  let session' : Session := { session with events := session.events ++ [event] }
  let event_data := event_to_dict event
  match table.find? (fun r => r.id == session.id) with
  | none => (table, session')
  | some current_record =>
    let current_events := current_record.events ++ [event_data]
    let table' := table.map (fun r =>
      if r.id == session.id then
        { r with events := current_events, state := session.state }
      else r)
    (table', session')

/-- `TinyDBSessionService.delete_session`: removes every record matching the
exact triple; no error when none matches. -/
def delete_session (table : SessionsTable) (app_name user_id session_id : String) :
    SessionsTable :=
  table.filter (fun r =>
    !(r.app_name == app_name && r.user_id == user_id && r.id == session_id))

/-- Folding `append_event` over a list of events (N successive append calls
on the same session object). -/
def append_events (table : SessionsTable) (session : Session)
    (events : List Event) : SessionsTable × Session :=
  events.foldl (fun acc e => append_event acc.1 acc.2 e) (table, session)

/-- `clear_chat` (flask/app.py): `sessions_table.truncate()` — the table's
effect is emptying it. -/
def clear_chat (_table : SessionsTable) : SessionsTable := []

/-- One record of the TinyDB `knowledge` table. -/
structure KnowledgeDoc where
  file_name : String
  summary : String
  type : String
deriving Repr, DecidableEq

/-- The `knowledge` table in document-id order. -/
abbrev KnowledgeTable := List KnowledgeDoc

/-- `KnowledgeService.save_summary`: upsert keyed by `file_name`: every
matching record is replaced, and the document is appended when none
matches. -/
def save_summary (table : KnowledgeTable) (file_name summary source_type : String) :
    KnowledgeTable :=
  let doc : KnowledgeDoc :=
    { file_name := file_name, summary := summary, type := source_type }
  if table.any (fun d => d.file_name == file_name) then
    table.map (fun d => if d.file_name == file_name then doc else d)
  else
    table ++ [doc]

/-- `KnowledgeService.has_summary`: whether a search by `file_name` returns a
non-empty result list. -/
def has_summary (table : KnowledgeTable) (file_name : String) : Bool :=
  (table.filter (fun d => d.file_name == file_name)).length > 0

/-- `KnowledgeService.get_summary`: first record matching `file_name`, else
`None`. -/
def get_summary (table : KnowledgeTable) (file_name : String) : Option KnowledgeDoc :=
  table.find? (fun d => d.file_name == file_name)

/-- The four f-string lines `get_all_summaries` appends for one document. -/
def doc_block (doc : KnowledgeDoc) : String :=
  ("--- START OF DOC: " ++ doc.file_name ++ " ---\n") ++
  (("TYPE: " ++ doc.type ++ "\n") ++
  (("SUMMARY: " ++ doc.summary ++ "\n") ++
  ("--- END OF DOC: " ++ doc.file_name ++ " ---\n\n")))

/-- `KnowledgeService.get_all_summaries`: the fixed no-knowledge sentence on
an empty table, otherwise the header followed by every document's block,
accumulated left to right. -/
def get_all_summaries (table : KnowledgeTable) : String :=
  match table with
  | [] => "No knowledge has been stored yet. Please run the processing tool."
  | _ => table.foldl (fun acc doc => acc ++ doc_block doc)
      "Here is the current knowledge base:\n\n"

/-- `clear_knowledge` (flask/app.py): `knowledge_service.table.truncate()` —
the table's effect is emptying it. -/
def clear_knowledge (_table : KnowledgeTable) : KnowledgeTable := []

/-- Folding `save_summary` over a list of (file_name, summary, type)
calls. -/
def apply_saves (table : KnowledgeTable) (ops : List (String × String × String)) :
    KnowledgeTable :=
  ops.foldl (fun acc op => save_summary acc op.1 op.2.1 op.2.2) table

/-! ### The GitHub profile tool (tools/github_tool.py)

HTTP responses and the JSON bodies a 200 response parses to are oracle
inputs; the tool's branching, aggregation and rendering are translated from
the source. Python's `sorted(..., reverse=True)` is a stable descending sort,
which `List.insertionSort` with the reversed non-strict order reproduces. -/

/-- An HTTP response as the tool inspects it: `status_code` and `text`. -/
structure HttpResp where
  status_code : Nat
  text : String
deriving Repr, DecidableEq

/-- The user-profile JSON fields the tool reads (`user.get(...)`); absent
JSON values are `none`. -/
structure GithubUser where
  login : String
  name : Option String
  bio : Option String
  public_repos : Nat
  followers : Nat
  following : Nat
deriving Repr, DecidableEq

/-- The repository JSON fields the tool reads; `stargazers_count` defaults to
0 when missing, which the field folds in. -/
structure Repo where
  name : String
  stargazers_count : Nat
  language : Option String
  html_url : String
  pushed_at : Option String
  updated_at : String
deriving Repr, DecidableEq

/-- Python `r.get("pushed_at") or r.get("updated_at", "")`: `None` and the
empty string are falsy, so they fall through to `updated_at`. -/
def repo_sort_key (r : Repo) : String :=
  match r.pushed_at with
  | some p => if p = "" then r.updated_at else p
  | none => r.updated_at

/-- Python `r.get('language') or 'unknown'`. -/
def lang_or_unknown (l : Option String) : String :=
  match l with
  | some s => if s = "" then "unknown" else s
  | none => "unknown"

/-- `languages[lang] = languages.get(lang, 0) + 1` on an insertion-ordered
dict: bump in place when present, append when new. -/
def bump_lang (m : List (String × Nat)) (lang : String) : List (String × Nat) :=
  if m.any (fun kv => kv.1 == lang) then
    m.map (fun kv => if kv.1 == lang then (kv.1, kv.2 + 1) else kv)
  else
    m ++ [(lang, 1)]

/-- The aggregate dict `fetch` returns on success. -/
structure FetchOk where
  user : GithubUser
  repos : List Repo
  total_stars : Nat
  top_repos : List Repo
  languages : List (String × Nat)
  recent : List Repo
deriving Repr, DecidableEq

/-- `fetch`'s result: the error dict `{"error": msg}` or the aggregate. -/
inductive FetchResult where
  | err (msg : String)
  | ok (data : FetchOk)
deriving Repr, DecidableEq

/-- The nested `fetch` in `github_profile_tool`: a non-200 user response or a
non-200 repos response yields the error dict with the formatted message;
otherwise the simple aggregates are computed. -/
def fetch (user_resp : HttpResp) (user : GithubUser)
    (repos_resp : HttpResp) (repos : List Repo) : FetchResult :=
  if user_resp.status_code ≠ 200 then
    .err ("Failed to fetch user: " ++ toString user_resp.status_code ++ " " ++
      user_resp.text)
  else if repos_resp.status_code ≠ 200 then
    .err ("Failed to fetch repos: " ++ toString repos_resp.status_code ++ " " ++
      repos_resp.text)
  else
    .ok
      { user := user
        repos := repos
        total_stars := (repos.map (fun r => r.stargazers_count)).sum
        top_repos :=
          (repos.insertionSort
            (fun a b => b.stargazers_count ≤ a.stargazers_count)).take 5
        languages := repos.foldl (fun m r =>
          match r.language with
          | some l => if l = "" then m else bump_lang m l
          | none => m) []
        recent :=
          (repos.insertionSort
            (fun a b => repo_sort_key b ≤ repo_sort_key a)).take 3 }

/-- The `lines` list the tool builds from a successful fetch, joined with
newlines. -/
def build_summary (data : FetchOk) : String :=
  let user := data.user
  let headLine :=
    "GitHub profile for " ++ user.login ++ " (" ++ user.name.getD "" ++ ")"
  let bioLines : List String :=
    match user.bio with
    | some b => if b = "" then [] else ["Bio: " ++ b]
    | none => []
  let countsLine :=
    "Public repos: " ++ toString user.public_repos ++ " | Followers: " ++
      toString user.followers ++ " | Following: " ++ toString user.following
  let starsLine := "Total stars across fetched repos: " ++ toString data.total_stars
  let topLines := data.top_repos.map (fun r =>
    "- " ++ r.name ++ ": " ++ toString r.stargazers_count ++ " stars | " ++
      lang_or_unknown r.language ++ " | " ++ r.html_url)
  let lang_items := data.languages.insertionSort (fun a b => b.2 ≤ a.2)
  let langLines : List String :=
    if lang_items.isEmpty then []
    else ["Languages used (by repo count): " ++
      String.intercalate ", "
        ((lang_items.take 8).map (fun kv => kv.1 ++ "(" ++ toString kv.2 ++ ")"))]
  let recentLines := data.recent.map (fun r =>
    "- " ++ r.name ++ ": pushed_at " ++ repo_sort_key r)
  String.intercalate "\n"
    ([headLine] ++ bioLines ++ [countsLine, starsLine, "Top repos by stars:"] ++
      topLines ++ langLines ++ ["Recently updated repos:"] ++ recentLines ++
      ["\n(End of GitHub summary)"])

/-- `github_profile_tool`: with no (or empty) username the fixed instruction
string is returned; otherwise fetch errors are returned verbatim as the
result string, and only a fully successful fetch renders the summary. The
function is total and `String`-valued: no path raises. -/
def github_profile_tool (username : Option String) (user_resp : HttpResp)
    (user : GithubUser) (repos_resp : HttpResp) (repos : List Repo) : String :=
  match username with
  | none =>
    "Error: GITHUB_USERNAME not set. Set `GITHUB_USERNAME` in .env or export it before starting the app."
  | some u =>
    if u = "" then
      "Error: GITHUB_USERNAME not set. Set `GITHUB_USERNAME` in .env or export it before starting the app."
    else
      match fetch user_resp user repos_resp repos with
      | .err msg => msg
      | .ok data => build_summary data

/-! ### Derived notions the properties are stated with -/

/-- The record `get`/`update` keyed by id resolve: the table holds at least
one record with `c`'s id and every record with that id is exactly `c`. -/
def table_inv (t : SessionsTable) (c : SessionRecord) : Prop :=
  (∃ r ∈ t, r.id = c.id) ∧ ∀ r ∈ t, r.id = c.id → r = c

/-- No two records of the sessions table share a session id. -/
def unique_ids (t : SessionsTable) : Prop :=
  (t.map SessionRecord.id).Nodup

/-- The concatenation of every document's block, in table order. -/
def render_docs (l : List KnowledgeDoc) : String :=
  l.foldr (fun d acc => doc_block d ++ acc) ""

/-- One store operation of the session service, as issued by callers: the
oracle `uuid` stands for the uuid4 draw inside `create_session`. -/
inductive SessionOp where
  | createOp (app user : String) (sid : Option String)
      (st : Option (List (String × String))) (uuid : String)
  | appendOp (s : Session) (e : Event)
  | deleteOp (app user sid : String)

/-- The effect of one operation on the sessions table. -/
def apply_op (t : SessionsTable) : SessionOp → SessionsTable
  | .createOp a u sid st uuid => (create_session t a u sid st uuid).1
  | .appendOp s e => (append_event t s e).1
  | .deleteOp a u sid => delete_session t a u sid

/-! ### Helper lemmas -/

theorem foldl_doc_block (l : List KnowledgeDoc) : ∀ (a : String),
    l.foldl (fun acc doc => acc ++ doc_block doc) a = a ++ render_docs l := by
  induction l with
  | nil => intro a; simp [render_docs, String.append_empty]
  | cons d l ih =>
    intro a
    rw [List.foldl_cons, ih (a ++ doc_block d)]
    show a ++ doc_block d ++ render_docs l = a ++ (doc_block d ++ render_docs l)
    rw [String.append_assoc]

theorem render_docs_append (l₁ l₂ : List KnowledgeDoc) :
    render_docs (l₁ ++ l₂) = render_docs l₁ ++ render_docs l₂ := by
  induction l₁ with
  | nil => simp [render_docs, String.empty_append]
  | cons d l ih =>
    show doc_block d ++ render_docs (l ++ l₂) =
      doc_block d ++ render_docs l ++ render_docs l₂
    rw [ih, String.append_assoc]

theorem get_all_summaries_cons (d : KnowledgeDoc) (l : List KnowledgeDoc) :
    get_all_summaries (d :: l) =
      "Here is the current knowledge base:\n\n" ++ render_docs (d :: l) := by
  show (d :: l).foldl (fun acc doc => acc ++ doc_block doc)
    "Here is the current knowledge base:\n\n" = _
  rw [foldl_doc_block]

theorem has_summary_iff (t : KnowledgeTable) (n : String) :
    has_summary t n = true ↔ ∃ d ∈ t, d.file_name = n := by
  unfold has_summary
  rw [decide_eq_true_iff, gt_iff_lt, List.length_pos, Ne, List.filter_eq_nil_iff]
  push_neg
  simp [beq_iff_eq]

/-- C2 helper: the composite the store applies to an event between an
`append` and a later `get`. -/
theorem round_trip_def (e : Event) :
    dict_to_event (event_to_dict e) =
      { id := e.id, author := e.author, timestamp := e.timestamp,
        content :=
          match e.content with
          | .mapping entries => .mapping entries
          | .modelObj dump => .mapping dump
          | .textObj t => .mapping [("text", t)]
          | .intVal n => .mapping [("text", toString n)] } := by
  cases e with
  | mk i a c ts => cases c <;> rfl

/-- **C2** — Serialization round-trip: an event whose content is the mapping
`{"text": "hello"}` saves and reloads to content again exposing
`text == "hello"`; an event whose content is the non-mapping value `42`
saves and reloads to content `{"text": "42"}` — a stable lossy coercion. -/
theorem event_serialization_round_trip (i a : String) (ts : Int) :
    (dict_to_event (event_to_dict
        { id := i, author := a, content := .mapping [("text", "hello")],
          timestamp := ts })).content = .mapping [("text", "hello")]
    ∧ content_text (dict_to_event (event_to_dict
        { id := i, author := a, content := .mapping [("text", "hello")],
          timestamp := ts })).content = some "hello"
    ∧ (dict_to_event (event_to_dict
        { id := i, author := a, content := .intVal 42,
          timestamp := ts })).content = .mapping [("text", "42")]
    ∧ content_text (dict_to_event (event_to_dict
        { id := i, author := a, content := .intVal 42,
          timestamp := ts })).content = some "42" :=
  ⟨rfl, rfl, rfl, rfl⟩

/-- **C8** — Truncating a store removes every prior entry: after the
`clear_chat` truncation any `get_session` returns `none`, and after the
`clear_knowledge` truncation any `has_summary` returns `false`. -/
theorem clear_stores_empty (t : SessionsTable) (kt : KnowledgeTable)
    (app user sid n : String) :
    get_session (clear_chat t) app user sid = none
    ∧ has_summary (clear_knowledge kt) n = false := by
  exact ⟨rfl, rfl⟩

/-- **C6** — Not-found is an absent result, never an error: a `get_session`
with no matching record returns `none`, and a `delete_session` with no
matching record leaves the table unchanged (and, being a total function,
raises nothing). -/
theorem not_found_absent (t : SessionsTable) (app user sid : String)
    (h : ∀ r ∈ t, ¬(r.app_name = app ∧ r.user_id = user ∧ r.id = sid)) :
    get_session t app user sid = none ∧ delete_session t app user sid = t := by
  have hfil : t.filter (fun r =>
      r.app_name == app && r.user_id == user && r.id == sid) = [] := by
    rw [List.filter_eq_nil_iff]
    intro r hr
    simp only [Bool.and_eq_true, beq_iff_eq]
    rintro ⟨⟨h1, h2⟩, h3⟩
    exact h r hr ⟨h1, h2, h3⟩
  constructor
  · unfold get_session
    rw [hfil]
  · unfold delete_session
    rw [List.filter_eq_self]
    intro r hr
    simp only [Bool.not_eq_true', Bool.and_eq_false_iff]
    by_contra hc
    simp only [Bool.and_eq_false_iff, beq_eq_false_iff_ne, ne_eq, not_or,
      not_not] at hc
    exact h r hr ⟨hc.1.1, hc.1.2, hc.2⟩

/-- Witness for C6 at a concrete table and a triple that matches nothing. -/
theorem not_found_absent_witness :
    get_session [⟨"s1", "docapp", "u1", [], []⟩] "other" "nobody" "s9" = none
    ∧ delete_session [⟨"s1", "docapp", "u1", [], []⟩] "other" "nobody" "s9" =
        [⟨"s1", "docapp", "u1", [], []⟩] :=
  not_found_absent [⟨"s1", "docapp", "u1", [], []⟩] "other" "nobody" "s9"
    (by decide)

/-- **C9** — Appending to a session whose id has no matching record leaves
the persisted table entirely unchanged and raises no error, while the
passed-in session's in-memory event list still receives the event. -/
theorem append_event_unknown_session (t : SessionsTable) (s : Session)
    (e : Event) (h : ∀ r ∈ t, r.id ≠ s.id) :
    append_event t s e = (t, { s with events := s.events ++ [e] }) := by
  have hfind : t.find? (fun r => r.id == s.id) = none := by
    rw [List.find?_eq_none]
    intro r hr
    simpa using h r hr
  simp [append_event, hfind]

/-- Witness for C9 on a table holding only an unrelated session record. -/
theorem append_event_unknown_session_witness :
    append_event [⟨"s1", "docapp", "u1", [], []⟩]
        ⟨"ghost", "docapp", "u1", [], []⟩
        ⟨"e1", "user", .textObj "hi", 0⟩ =
      ([⟨"s1", "docapp", "u1", [], []⟩],
        ⟨"ghost", "docapp", "u1", [],
          [⟨"e1", "user", .textObj "hi", 0⟩]⟩) :=
  append_event_unknown_session [⟨"s1", "docapp", "u1", [], []⟩]
    ⟨"ghost", "docapp", "u1", [], []⟩ ⟨"e1", "user", .textObj "hi", 0⟩
    (by decide)

/-- **C5** — `get_all_summaries` on the empty store returns the fixed
no-knowledge sentence; on any store containing the entry saved for
"resume.pdf" with type "Resume (PDF)" and summary "Senior engineer, 5 years"
the rendered text is the header followed by every entry's delimited block in
order, and it contains the file name and the summary verbatim. -/
theorem knowledge_render_all (table : KnowledgeTable)
    (h : (⟨"resume.pdf", "Senior engineer, 5 years", "Resume (PDF)"⟩ :
      KnowledgeDoc) ∈ table) :
    get_all_summaries ([] : KnowledgeTable) =
      "No knowledge has been stored yet. Please run the processing tool."
    ∧ get_all_summaries table =
        "Here is the current knowledge base:\n\n" ++ render_docs table
    ∧ (∃ pre post, get_all_summaries table = pre ++ ("resume.pdf" ++ post))
    ∧ (∃ pre post, get_all_summaries table =
        pre ++ ("Senior engineer, 5 years" ++ post)) := by
  have hshape : get_all_summaries table =
      "Here is the current knowledge base:\n\n" ++ render_docs table := by
    cases table with
    | nil => cases h
    | cons d l => exact get_all_summaries_cons d l
  obtain ⟨l₁, l₂, rfl⟩ := List.append_of_mem h
  have hsplit : render_docs (l₁ ++
      (⟨"resume.pdf", "Senior engineer, 5 years", "Resume (PDF)"⟩ :
        KnowledgeDoc) :: l₂) =
      render_docs l₁ ++
        (doc_block ⟨"resume.pdf", "Senior engineer, 5 years", "Resume (PDF)"⟩ ++
          render_docs l₂) := by
    rw [render_docs_append]
    rfl
  refine ⟨rfl, hshape, ?_, ?_⟩
  · refine ⟨"Here is the current knowledge base:\n\n" ++
      (render_docs l₁ ++ "--- START OF DOC: "),
      " ---\n" ++ (("TYPE: " ++ "Resume (PDF)" ++ "\n") ++
        (("SUMMARY: " ++ "Senior engineer, 5 years" ++ "\n") ++
        (("--- END OF DOC: " ++ "resume.pdf" ++ " ---\n\n") ++
          render_docs l₂))), ?_⟩
    rw [hshape, hsplit]
    simp only [doc_block, String.append_assoc]
  · refine ⟨"Here is the current knowledge base:\n\n" ++
      (render_docs l₁ ++ (("--- START OF DOC: " ++ ("resume.pdf" ++ " ---\n")) ++
        ("TYPE: " ++ ("Resume (PDF)" ++ ("\n" ++ "SUMMARY: "))))),
      "\n" ++ (("--- END OF DOC: " ++ "resume.pdf" ++ " ---\n\n") ++
        render_docs l₂), ?_⟩
    rw [hshape, hsplit]
    simp only [doc_block, String.append_assoc]

/-- Witness for C5 on the one-entry store produced by saving the résumé
summary into an empty knowledge table. -/
theorem knowledge_render_all_witness :
    get_all_summaries ([] : KnowledgeTable) =
      "No knowledge has been stored yet. Please run the processing tool."
    ∧ get_all_summaries
        [⟨"resume.pdf", "Senior engineer, 5 years", "Resume (PDF)"⟩] =
        "Here is the current knowledge base:\n\n" ++
          render_docs [⟨"resume.pdf", "Senior engineer, 5 years", "Resume (PDF)"⟩]
    ∧ (∃ pre post, get_all_summaries
        [⟨"resume.pdf", "Senior engineer, 5 years", "Resume (PDF)"⟩] =
        pre ++ ("resume.pdf" ++ post))
    ∧ (∃ pre post, get_all_summaries
        [⟨"resume.pdf", "Senior engineer, 5 years", "Resume (PDF)"⟩] =
        pre ++ ("Senior engineer, 5 years" ++ post)) :=
  knowledge_render_all
    [⟨"resume.pdf", "Senior engineer, 5 years", "Resume (PDF)"⟩]
    (List.mem_singleton.mpr rfl)

/-- C4 helper: `save_summary` leaves an entry carrying its file name. -/
theorem save_summary_mem_self (t : KnowledgeTable) (n s ty : String) :
    ∃ d ∈ save_summary t n s ty, d.file_name = n := by
  unfold save_summary
  by_cases hany : t.any (fun d => d.file_name == n) = true
  · obtain ⟨r, hr, hb⟩ := List.any_eq_true.mp hany
    rw [if_pos hany]
    exact ⟨⟨n, s, ty⟩, List.mem_map.mpr ⟨r, hr, by simp [hb]⟩, rfl⟩
  · rw [if_neg hany]
    exact ⟨⟨n, s, ty⟩, List.mem_append.mpr (Or.inr (List.mem_singleton.mpr rfl)),
      rfl⟩

/-- C4 helper: `save_summary` never removes a file name from the store. -/
theorem save_summary_keeps_mem (t : KnowledgeTable) (n' s ty n : String)
    (h : ∃ d ∈ t, d.file_name = n) :
    ∃ d ∈ save_summary t n' s ty, d.file_name = n := by
  obtain ⟨d, hd, hdn⟩ := h
  unfold save_summary
  by_cases hany : t.any (fun d => d.file_name == n') = true
  · rw [if_pos hany]
    by_cases hb : (d.file_name == n') = true
    · refine ⟨⟨n', s, ty⟩, List.mem_map.mpr ⟨d, hd, by simp [hb]⟩, ?_⟩
      have : n = n' := hdn ▸ beq_iff_eq.mp hb
      simp [this]
    · exact ⟨d, List.mem_map.mpr ⟨d, hd, by simp [hb]⟩, hdn⟩
  · rw [if_neg hany]
    exact ⟨d, List.mem_append.mpr (Or.inl hd), hdn⟩

/-- C4 helper: `save_summary` preserves file-name uniqueness. -/
theorem save_summary_nodup (t : KnowledgeTable) (n s ty : String)
    (h : (t.map KnowledgeDoc.file_name).Nodup) :
    ((save_summary t n s ty).map KnowledgeDoc.file_name).Nodup := by
  unfold save_summary
  by_cases hany : t.any (fun d => d.file_name == n) = true
  · rw [if_pos hany]
    have : (t.map (fun d =>
        if d.file_name == n then (⟨n, s, ty⟩ : KnowledgeDoc) else d)).map
          KnowledgeDoc.file_name = t.map KnowledgeDoc.file_name := by
      rw [List.map_map]
      apply List.map_congr_left
      intro d _
      by_cases hb : (d.file_name == n) = true
      · simp [Function.comp, hb, (beq_iff_eq.mp hb).symm]
      · simp [Function.comp, hb]
    rw [this]
    exact h
  · rw [if_neg hany, List.map_append]
    rw [List.nodup_append]
    refine ⟨h, List.nodup_singleton n, ?_⟩
    intro x hx hx'
    obtain ⟨d, hd, rfl⟩ := List.mem_map.mp hx
    have := List.any_eq_false.mp (Bool.not_eq_true _ ▸ hany) d hd
    have hxn : d.file_name = n := by simpa using hx'
    exact this (by simp [hxn])

/-- C4 helper: a fold of further `save_summary` calls keeps a present file
name present and keeps file names unique. -/
theorem apply_saves_keeps (ops : List (String × String × String)) :
    ∀ (t : KnowledgeTable) (n : String),
      ((∃ d ∈ t, d.file_name = n) → ∃ d ∈ apply_saves t ops, d.file_name = n)
      ∧ ((t.map KnowledgeDoc.file_name).Nodup →
          ((apply_saves t ops).map KnowledgeDoc.file_name).Nodup) := by
  induction ops with
  | nil => exact fun t n => ⟨id, id⟩
  | cons op ops ih =>
    intro t n
    constructor
    · intro hmem
      exact (ih (save_summary t op.1 op.2.1 op.2.2) n).1
        (save_summary_keeps_mem t op.1 op.2.1 op.2.2 n hmem)
    · intro hnd
      exact (ih (save_summary t op.1 op.2.1 op.2.2) n).2
        (save_summary_nodup t op.1 op.2.1 op.2.2 hnd)

/-- **C4** — After `save_summary(name, ...)` the predicate `has_summary name`
is true, it stays true across any further sequence of `save_summary` calls,
and when the store held at most one entry per file name it still does after
the whole sequence (upsert-by-name creates no duplicate). -/
theorem save_summary_has_and_unique (table : KnowledgeTable)
    (n s ty : String) (ops : List (String × String × String))
    (h : (table.map KnowledgeDoc.file_name).Nodup) :
    has_summary (save_summary table n s ty) n = true
    ∧ has_summary (apply_saves (save_summary table n s ty) ops) n = true
    ∧ ((apply_saves (save_summary table n s ty) ops).map
        KnowledgeDoc.file_name).Nodup := by
  refine ⟨(has_summary_iff _ n).mpr (save_summary_mem_self table n s ty),
    (has_summary_iff _ n).mpr
      ((apply_saves_keeps ops (save_summary table n s ty) n).1
        (save_summary_mem_self table n s ty)), ?_⟩
  exact (apply_saves_keeps ops (save_summary table n s ty) n).2
    (save_summary_nodup table n s ty h)

/-- Witness for C4: saving "resume.pdf" into the empty store, then saving it
twice more, keeps `has_summary` true and the store duplicate-free. -/
theorem save_summary_has_and_unique_witness :
    has_summary (save_summary [] "resume.pdf" "v1" "Resume (PDF)")
      "resume.pdf" = true
    ∧ has_summary (apply_saves (save_summary [] "resume.pdf" "v1" "Resume (PDF)")
        [("resume.pdf", "v2", "Resume (PDF)"), ("resume.pdf", "v3", "Resume (PDF)")])
        "resume.pdf" = true
    ∧ ((apply_saves (save_summary [] "resume.pdf" "v1" "Resume (PDF)")
        [("resume.pdf", "v2", "Resume (PDF)"), ("resume.pdf", "v3", "Resume (PDF)")]).map
        KnowledgeDoc.file_name).Nodup :=
  save_summary_has_and_unique [] "resume.pdf" "v1" "Resume (PDF)"
    [("resume.pdf", "v2", "Resume (PDF)"), ("resume.pdf", "v3", "Resume (PDF)")]
    List.nodup_nil

/-- Session-store helper: after an upsert keyed by id, the upserted record is
present and is the only record carrying its id. -/
theorem upsert_table_inv (t : SessionsTable) (rec : SessionRecord) :
    table_inv (upsertById t rec) rec := by
  unfold upsertById table_inv
  by_cases hany : t.any (fun r => r.id == rec.id) = true
  · rw [if_pos hany]
    obtain ⟨r, hr, hb⟩ := List.any_eq_true.mp hany
    constructor
    · exact ⟨rec, List.mem_map.mpr ⟨r, hr, by simp [hb]⟩, rfl⟩
    · intro r' hr' hid
      obtain ⟨r₀, hr₀, rfl⟩ := List.mem_map.mp hr'
      by_cases hb₀ : (r₀.id == rec.id) = true
      · rw [if_pos hb₀]
      · rw [if_neg hb₀] at hid
        exact absurd (beq_iff_eq.mpr hid) hb₀
  · rw [if_neg hany]
    constructor
    · exact ⟨rec, List.mem_append.mpr (Or.inr (List.mem_singleton.mpr rfl)), rfl⟩
    · intro r' hr' hid
      rcases List.mem_append.mp hr' with hmem | hmem
      · have := List.any_eq_false.mp (Bool.not_eq_true _ ▸ hany) r' hmem
        exact absurd (beq_iff_eq.mpr hid) this
      · exact List.mem_singleton.mp hmem

/-- Session-store helper: `table.get(Query().id == c.id)` — i.e. the first
record with a given id — is `c` when every record with that id is `c` and one
exists. -/
theorem find_first_of_all_eq :
    ∀ (t : SessionsTable) (c : SessionRecord),
      (∃ r ∈ t, r.id = c.id) → (∀ r ∈ t, r.id = c.id → r = c) →
      t.find? (fun r => r.id == c.id) = some c
  | [], _, hex, _ => by
    obtain ⟨r, hr, _⟩ := hex
    cases hr
  | a :: t, c, hex, hall => by
    by_cases ha : (a.id == c.id) = true
    · rw [List.find?_cons_of_pos (p := fun r : SessionRecord => r.id == c.id) _ ha]
      exact congrArg some (hall a (List.mem_cons_self a t) (beq_iff_eq.mp ha))
    · rw [List.find?_cons_of_neg (p := fun r : SessionRecord => r.id == c.id) _ ha]
      apply find_first_of_all_eq t c
      · obtain ⟨r, hr, hrid⟩ := hex
        rcases List.mem_cons.mp hr with rfl | hmem
        · exact absurd (beq_iff_eq.mpr hrid) ha
        · exact ⟨r, hmem, hrid⟩
      · exact fun r hr hrid => hall r (List.mem_cons_of_mem a hr) hrid

/-- Session-store helper: under `table_inv`, a `get_session` with the
record's own triple returns exactly its rehydration. -/
theorem get_session_of_table_inv (t : SessionsTable) (c : SessionRecord)
    (h : table_inv t c) :
    get_session t c.app_name c.user_id c.id =
      some { id := c.id, app_name := c.app_name, user_id := c.user_id,
             state := c.state, events := c.events.map dict_to_event } := by
  obtain ⟨⟨w, hw, hwid⟩, hall⟩ := h
  have hc : c ∈ t := (hall w hw hwid) ▸ hw
  have hmemf : c ∈ t.filter (fun r =>
      r.app_name == c.app_name && r.user_id == c.user_id && r.id == c.id) :=
    List.mem_filter.mpr ⟨hc, by simp⟩
  unfold get_session
  cases hres : t.filter (fun r =>
      r.app_name == c.app_name && r.user_id == c.user_id && r.id == c.id) with
  | nil =>
    rw [hres] at hmemf
    cases hmemf
  | cons d rest =>
    have hd : d ∈ t.filter (fun r =>
        r.app_name == c.app_name && r.user_id == c.user_id && r.id == c.id) :=
      hres ▸ List.mem_cons_self d rest
    obtain ⟨hdt, hdp⟩ := List.mem_filter.mp hd
    have hdid : d.id = c.id := by
      simp only [Bool.and_eq_true, beq_iff_eq] at hdp
      exact hdp.2
    have hdc : d = c := hall d hdt hdid
    subst hdc
    rfl

/-- Session-store helper: one `append_event` under `table_inv` extends the
stored event list by the serialized event and leaves everything else of the
record alone; the in-memory session gets the raw event. -/
theorem append_event_table_inv (t : SessionsTable) (s : Session) (e : Event)
    (c : SessionRecord) (ht : table_inv t c) (hid : s.id = c.id)
    (hst : s.state = c.state) :
    table_inv (append_event t s e).1
        { c with events := c.events ++ [event_to_dict e] }
    ∧ (append_event t s e).2 = { s with events := s.events ++ [e] } := by
  have hfind : t.find? (fun r => r.id == s.id) = some c := by
    rw [hid]
    exact find_first_of_all_eq t c ht.1 ht.2
  have happ : append_event t s e =
      (t.map (fun r => if r.id == s.id then
          { r with events := c.events ++ [event_to_dict e], state := s.state }
        else r), { s with events := s.events ++ [e] }) := by
    simp [append_event, hfind]
  have hc : c ∈ t := by
    obtain ⟨w, hw, hwid⟩ := ht.1
    exact (ht.2 w hw hwid) ▸ hw
  rw [happ]
  refine ⟨⟨?_, ?_⟩, rfl⟩
  · refine ⟨{ c with events := c.events ++ [event_to_dict e], state := s.state },
      List.mem_map.mpr ⟨c, hc, ?_⟩, rfl⟩
    rw [if_pos (beq_iff_eq.mpr hid.symm)]
  · intro r' hr' hrid
    obtain ⟨r, hr, rfl⟩ := List.mem_map.mp hr'
    by_cases hb : (r.id == s.id) = true
    · rw [if_pos hb]
      have hrc : r = c := ht.2 r hr (hid ▸ beq_iff_eq.mp hb)
      rw [hrc, hst]
    · rw [if_neg hb] at hrid
      exact absurd (beq_iff_eq.mpr (hrid.trans hid.symm)) hb

/-- Session-store helper: a whole sequence of `append_event` calls under
`table_inv` appends the serialized events in order to the stored record and
the raw events in order to the in-memory session. -/
theorem append_events_table_inv :
    ∀ (evs : List Event) (t : SessionsTable) (s : Session) (c : SessionRecord),
      table_inv t c → s.id = c.id → s.state = c.state →
      table_inv (append_events t s evs).1
          { c with events := c.events ++ evs.map event_to_dict }
      ∧ (append_events t s evs).2 = { s with events := s.events ++ evs }
  | [], t, s, c, ht, _, _ => by
    refine ⟨?_, ?_⟩
    · simpa [append_events] using ht
    · simp [append_events]
  | e :: evs, t, s, c, ht, hid, hst => by
    have hstep := append_event_table_inv t s e c ht hid hst
    have hid' : (append_event t s e).2.id = c.id := by
      rw [hstep.2]
      exact hid
    have hst' : (append_event t s e).2.state = c.state := by
      rw [hstep.2]
      exact hst
    have hrec := append_events_table_inv evs (append_event t s e).1
      (append_event t s e).2 { c with events := c.events ++ [event_to_dict e] }
      hstep.1 hid' hst'
    have hunf : append_events t s (e :: evs) =
        append_events (append_event t s e).1 (append_event t s e).2 evs := rfl
    rw [hunf]
    refine ⟨?_, ?_⟩
    · have h1 := hrec.1
      simpa [List.append_assoc] using h1
    · rw [hrec.2, hstep.2]
      simp

/-- **C3** — `create_session`: a session identifier is generated (the uuid4
draw) when none is supplied; the in-memory `Session` with the given-or-empty
state and no events is returned; a record with an empty event list is
written; and when the supplied id collides with existing records the call
does not fail but overwrites them via upsert keyed by id, leaving every
record with that id in the fresh empty-event state. -/
theorem create_session_spec (table : SessionsTable) (app user sid : String)
    (st : Option (List (String × String))) (uuid : String) (h : sid ≠ "") :
    (create_session table app user none st uuid).2.id = uuid
    ∧ (create_session table app user (some sid) st uuid).2 =
        ⟨sid, app, user, st.getD [], []⟩
    ∧ (⟨sid, app, user, st.getD [], []⟩ : SessionRecord) ∈
        (create_session table app user (some sid) st uuid).1
    ∧ ∀ r ∈ (create_session table app user (some sid) st uuid).1,
        r.id = sid → r = ⟨sid, app, user, st.getD [], []⟩ := by
  have hres : resolve_sid (some sid) uuid = sid := by
    simp [resolve_sid, h]
  have hc1 : (create_session table app user (some sid) st uuid).1 =
      upsertById table ⟨sid, app, user, st.getD [], []⟩ := by
    show upsertById table ⟨resolve_sid (some sid) uuid, app, user,
      st.getD [], []⟩ = _
    rw [hres]
  have hc2 : (create_session table app user (some sid) st uuid).2 =
      (⟨sid, app, user, st.getD [], []⟩ : Session) := by
    show (⟨resolve_sid (some sid) uuid, app, user, st.getD [], []⟩ : Session) = _
    rw [hres]
  have hinv := upsert_table_inv table ⟨sid, app, user, st.getD [], []⟩
  refine ⟨rfl, hc2, ?_, ?_⟩
  · rw [hc1]
    obtain ⟨r, hr, hid⟩ := hinv.1
    exact (hinv.2 r hr hid) ▸ hr
  · intro r hr hid
    rw [hc1] at hr
    exact hinv.2 r hr hid

/-- Witness for C3 on a concrete table already holding the colliding id. -/
theorem create_session_spec_witness :
    (create_session [⟨"s1", "oldapp", "olduser", [], []⟩] "docapp" "u1" none
      none "gen-uuid").2.id = "gen-uuid"
    ∧ (create_session [⟨"s1", "oldapp", "olduser", [], []⟩] "docapp" "u1"
        (some "s1") none "gen-uuid").2 = ⟨"s1", "docapp", "u1", [], []⟩
    ∧ (⟨"s1", "docapp", "u1", [], []⟩ : SessionRecord) ∈
        (create_session [⟨"s1", "oldapp", "olduser", [], []⟩] "docapp" "u1"
          (some "s1") none "gen-uuid").1
    ∧ ∀ r ∈ (create_session [⟨"s1", "oldapp", "olduser", [], []⟩] "docapp" "u1"
          (some "s1") none "gen-uuid").1,
        r.id = "s1" → r = ⟨"s1", "docapp", "u1", [], []⟩ :=
  create_session_spec [⟨"s1", "oldapp", "olduser", [], []⟩] "docapp" "u1" "s1"
    none "gen-uuid" (by decide)

/-- C10 helper: an upsert keyed by id preserves id-uniqueness. -/
theorem upsert_unique_ids (t : SessionsTable) (rec : SessionRecord)
    (h : unique_ids t) : unique_ids (upsertById t rec) := by
  unfold upsertById unique_ids at *
  by_cases hany : t.any (fun r => r.id == rec.id) = true
  · rw [if_pos hany, List.map_map]
    have : t.map (SessionRecord.id ∘ fun r =>
        if r.id == rec.id then rec else r) = t.map SessionRecord.id := by
      apply List.map_congr_left
      intro r _
      by_cases hb : (r.id == rec.id) = true
      · simp [Function.comp, hb, (beq_iff_eq.mp hb).symm]
      · simp [Function.comp, hb]
    rw [this]
    exact h
  · rw [if_neg hany, List.map_append, List.nodup_append]
    refine ⟨h, List.nodup_singleton _, ?_⟩
    intro x hx hx'
    obtain ⟨r, hr, rfl⟩ := List.mem_map.mp hx
    have hfalse := List.any_eq_false.mp (Bool.not_eq_true _ ▸ hany) r hr
    have hxn : r.id = rec.id := by simpa using hx'
    exact hfalse (by simp [hxn])

/-- C10 helper: `append_event` never changes which ids the table holds. -/
theorem append_event_ids (t : SessionsTable) (s : Session) (e : Event) :
    ((append_event t s e).1).map SessionRecord.id = t.map SessionRecord.id := by
  cases hf : t.find? (fun r => r.id == s.id) with
  | none => simp [append_event, hf]
  | some cr =>
    simp only [append_event, hf, List.map_map]
    apply List.map_congr_left
    intro r _
    by_cases hb : (r.id == s.id) = true
    · simp [Function.comp, hb, beq_iff_eq.mp hb]
    · simp [Function.comp, hb]

/-- C10 helper: every single store operation preserves id-uniqueness. -/
theorem apply_op_unique_ids (t : SessionsTable) (op : SessionOp)
    (h : unique_ids t) : unique_ids (apply_op t op) := by
  cases op with
  | createOp a u sid st uuid => exact upsert_unique_ids t _ h
  | appendOp s e =>
    unfold unique_ids at *
    show (List.map SessionRecord.id (append_event t s e).1).Nodup
    rw [append_event_ids]
    exact h
  | deleteOp a u sid =>
    exact List.Nodup.sublist ((List.filter_sublist t).map SessionRecord.id) h

/-- **C10** — After any sequence of create, append and delete operations on
an initially empty store, the sessions table never holds two records with the
same session id, regardless of their (app, user) pairs: `create_session`
upserts keyed by id alone and `append_event` selects its target by id
alone. -/
theorem sessions_never_duplicate_ids (ops : List SessionOp) :
    unique_ids (ops.foldl apply_op []) := by
  have hstep : ∀ (l : List SessionOp) (t : SessionsTable),
      unique_ids t → unique_ids (l.foldl apply_op t) := by
    intro l
    induction l with
    | nil => exact fun t h => h
    | cons op l ih => exact fun t h => ih (apply_op t op) (apply_op_unique_ids t op h)
  exact hstep ops [] List.nodup_nil

/-- **C1** — Create a session, append any N events to it, then `get` with the
created session's (app, user, id) triple: the returned session carries the
creation state and exactly the N appended events in append order, each in its
stored round-trip form (which keeps id, author and timestamp, and keeps
mapping content verbatim); the event count equals N; the in-memory session
holds the raw events in the same order; and when every appended event's
content is a mapping the returned event list is literally the appended
list. -/
theorem session_create_append_get (table : SessionsTable)
    (app user : String) (sid : Option String)
    (st : Option (List (String × String))) (uuid : String) (evs : List Event) :
    get_session
        (append_events (create_session table app user sid st uuid).1
          (create_session table app user sid st uuid).2 evs).1
        app user (create_session table app user sid st uuid).2.id =
      some { id := (create_session table app user sid st uuid).2.id,
             app_name := app, user_id := user, state := st.getD [],
             events := evs.map (fun e => dict_to_event (event_to_dict e)) }
    ∧ (evs.map (fun e => dict_to_event (event_to_dict e))).length = evs.length
    ∧ evs.map (fun e => (dict_to_event (event_to_dict e)).id) =
        evs.map Event.id
    ∧ evs.map (fun e => (dict_to_event (event_to_dict e)).author) =
        evs.map Event.author
    ∧ evs.map (fun e => (dict_to_event (event_to_dict e)).timestamp) =
        evs.map Event.timestamp
    ∧ (append_events (create_session table app user sid st uuid).1
        (create_session table app user sid st uuid).2 evs).2.events = evs
    ∧ ((∀ e ∈ evs, ∃ d, e.content = PyContent.mapping d) →
        get_session
            (append_events (create_session table app user sid st uuid).1
              (create_session table app user sid st uuid).2 evs).1
            app user (create_session table app user sid st uuid).2.id =
          some { id := (create_session table app user sid st uuid).2.id,
                 app_name := app, user_id := user, state := st.getD [],
                 events := evs }) := by
  have hc1 : (create_session table app user sid st uuid).1 =
      upsertById table ⟨resolve_sid sid uuid, app, user, st.getD [], []⟩ := rfl
  have hc2 : (create_session table app user sid st uuid).2 =
      (⟨resolve_sid sid uuid, app, user, st.getD [], []⟩ : Session) := rfl
  have hinv := upsert_table_inv table
    ⟨resolve_sid sid uuid, app, user, st.getD [], []⟩
  have hfold := append_events_table_inv evs
    (upsertById table ⟨resolve_sid sid uuid, app, user, st.getD [], []⟩)
    (⟨resolve_sid sid uuid, app, user, st.getD [], []⟩ : Session)
    ⟨resolve_sid sid uuid, app, user, st.getD [], []⟩ hinv rfl rfl
  have hget := get_session_of_table_inv _ _ hfold.1
  rw [hc1, hc2]
  have hmain : get_session
      (append_events
        (upsertById table ⟨resolve_sid sid uuid, app, user, st.getD [], []⟩)
        (⟨resolve_sid sid uuid, app, user, st.getD [], []⟩ : Session) evs).1
      app user (resolve_sid sid uuid) =
      some { id := resolve_sid sid uuid, app_name := app, user_id := user,
             state := st.getD [],
             events := evs.map (fun e => dict_to_event (event_to_dict e)) } := by
    have := hget
    simp only [List.nil_append] at this
    rw [this]
    rw [List.map_map]
    rfl
  refine ⟨hmain, by rw [List.length_map], ?_, ?_, ?_, ?_, ?_⟩
  · exact List.map_congr_left (fun e _ => by cases e with
      | mk i a c ts => cases c <;> rfl)
  · exact List.map_congr_left (fun e _ => by cases e with
      | mk i a c ts => cases c <;> rfl)
  · exact List.map_congr_left (fun e _ => by cases e with
      | mk i a c ts => cases c <;> rfl)
  · rw [hfold.2]
    simp
  · intro hmap
    have hid : evs.map (fun e => dict_to_event (event_to_dict e)) = evs := by
      have : evs.map (fun e => dict_to_event (event_to_dict e)) =
          evs.map id := by
        apply List.map_congr_left
        intro e he
        obtain ⟨d, hd⟩ := hmap e he
        cases e with
        | mk i a c ts =>
          simp only at hd
          rw [hd]
          rfl
      rw [this, List.map_id]
    rw [hmain, hid]

/-- Witness for C1: the spec's concrete scenario — create
("docapp","u1","s1"), append a user event and an assistant event with mapping
content, `get` returns exactly those two events in order. -/
theorem session_create_append_get_witness :
    get_session
        (append_events (create_session [] "docapp" "u1" (some "s1") none "g").1
          (create_session [] "docapp" "u1" (some "s1") none "g").2
          [⟨"e1", "user", .mapping [("text", "hi")], 0⟩,
            ⟨"e2", "assistant", .mapping [("text", "hello!")], 1⟩]).1
        "docapp" "u1" (create_session [] "docapp" "u1" (some "s1") none "g").2.id =
      some { id := (create_session [] "docapp" "u1" (some "s1") none "g").2.id,
             app_name := "docapp", user_id := "u1", state := [],
             events := [⟨"e1", "user", .mapping [("text", "hi")], 0⟩,
               ⟨"e2", "assistant", .mapping [("text", "hello!")], 1⟩] } :=
  (session_create_append_get [] "docapp" "u1" (some "s1") none "g"
      [⟨"e1", "user", .mapping [("text", "hi")], 0⟩,
        ⟨"e2", "assistant", .mapping [("text", "hello!")], 1⟩]).2.2.2.2.2.2
    (by intro e he
        rcases List.mem_cons.mp he with rfl | he2
        · exact ⟨[("text", "hi")], rfl⟩
        · rcases List.mem_cons.mp he2 with rfl | he3
          · exact ⟨[("text", "hello!")], rfl⟩
          · cases he3)

/-- **C7** — Upstream failures surface as text, not as a thrown structured
error: whenever the user request or the repository request comes back with a
non-200 status, `github_profile_tool` returns the formatted error-message
string in place of the profile summary (the embedding is a total
`String`-valued function: no path raises). -/
theorem github_tool_upstream_error (uname : String)
    (user_resp repos_resp : HttpResp) (user : GithubUser) (repos : List Repo)
    (hname : uname ≠ "") :
    (user_resp.status_code ≠ 200 →
      github_profile_tool (some uname) user_resp user repos_resp repos =
        "Failed to fetch user: " ++ toString user_resp.status_code ++ " " ++
          user_resp.text)
    ∧ (user_resp.status_code = 200 → repos_resp.status_code ≠ 200 →
      github_profile_tool (some uname) user_resp user repos_resp repos =
        "Failed to fetch repos: " ++ toString repos_resp.status_code ++ " " ++
          repos_resp.text) := by
  constructor
  · intro hu
    simp [github_profile_tool, fetch, hname, hu]
  · intro hu hr
    simp [github_profile_tool, fetch, hname, hu, hr]

/-- Witness for C7 at a concrete 500 user response. -/
theorem github_tool_upstream_error_witness :
    github_profile_tool (some "octocat") ⟨500, "boom"⟩
        ⟨"octocat", none, none, 0, 0, 0⟩ ⟨200, "[]"⟩ [] =
      "Failed to fetch user: " ++ toString (500 : Nat) ++ " " ++ "boom" :=
  (github_tool_upstream_error "octocat" ⟨500, "boom"⟩ ⟨200, "[]"⟩
      ⟨"octocat", none, none, 0, 0, 0⟩ [] (by decide)).1 (by decide)

end DocumentAgent
